import Mathlib

/-!
Shallow embedding of `src/chat/chat.gateway.ts` (a socket.io chat gateway).

The gateway keeps two in-memory mutable arrays, `users` and `groups`, and a
set of event handlers.  Each TypeScript handler becomes a Lean function that
takes the caller's socket id (and, where the handler reads the wall clock, an
ISO timestamp string supplied by the environment) together with the current
state, and returns the acknowledgment object, the list of outbound socket
emissions performed, and the successor state.  JavaScript in-place mutation of
an object found by `Array.find` is modelled with `updateFirst`, which rewrites
exactly the first element matching the predicate.  `generateUserId` produces an
opaque random string that no logic ever reads; it is modelled as a fresh
counter value drawn from `nextId`.
-/

namespace Chat

/-- Sessions stored in the gateway's `users` array (interface `User`). -/
structure User where
  id : Nat
  username : String
  socketId : String
deriving DecidableEq, Repr

/-- Entries of the gateway's `groups` array (interface `Group`);
`members` is an array of usernames. -/
structure Group where
  name : String
  members : List String
deriving DecidableEq, Repr

/-- The gateway's mutable state: the `users` and `groups` arrays, plus the
counter that models `generateUserId`. -/
structure ChatState where
  users : List User
  groups : List Group
  nextId : Nat
deriving DecidableEq, Repr

/-- The empty gateway state at process start. -/
def initState : ChatState := { users := [], groups := [], nextId := 0 }

/-- The `{ success, message }` acknowledgment objects returned by most
handlers. -/
structure Ack where
  success : Bool
  message : String
deriving DecidableEq, Repr

/-- Acknowledgment of `joinGroup`: failure carries only a message, success
additionally carries the group's member array. -/
inductive JoinAck where
  | fail (message : String)
  | ok (message : String) (members : List String)
deriving DecidableEq, Repr

/-- Destination of a `server.to(...)` emission: a single socket or a
socket.io room. -/
inductive EmitTarget where
  | socket (socketId : String)
  | room (roomName : String)
deriving DecidableEq, Repr

/-- Payloads of the three kinds of events the gateway emits. -/
inductive EmitPayload where
  | privateMsg (fromUser message timestamp : String)
  | groupNote (group message timestamp : String)
  | groupMsg (group fromUser message timestamp : String)
deriving DecidableEq, Repr

/-- One outbound `server.to(target).emit(event, payload)` call. -/
structure Emit where
  target : EmitTarget
  event : String
  payload : EmitPayload
deriving DecidableEq, Repr

/-- Replaces the first element satisfying `p` by its `f`-image, leaving the
rest of the list unchanged.  This models JavaScript code that mutates the
object returned by `Array.find` in place. -/
def updateFirst (p : α → Bool) (f : α → α) : List α → List α
  | [] => []
  | x :: xs => if p x then f x :: xs else x :: updateFirst p f xs

/-- Handler `handleDisconnect`: if some user owns the closing socket, drop
every user on that socket and filter the first found user's username out of
every group's member array; otherwise do nothing. -/
def handleDisconnect (clientId : String) (s : ChatState) : ChatState :=
  match s.users.find? (fun user => user.socketId == clientId) with
  | none => s
  | some user =>
      { s with
        users := s.users.filter (fun u => u.socketId != clientId),
        groups := s.groups.map (fun group =>
          { group with
            members := group.members.filter (fun member => member != user.username) }) }

/-- Handler `handleRegister` (event `register`): reconnect when the username
exists on a different socket, reject when it exists on the same socket, and
otherwise append a fresh user. -/
def handleRegister (username : String) (clientId : String) (s : ChatState) :
    Ack × ChatState :=
  match s.users.find? (fun user => user.username == username) with
  | some existingUser =>
      if existingUser.socketId != clientId then
        ({ success := true, message := "Reconnected successfully" },
         { s with
           users := updateFirst (fun user => user.username == username)
             (fun user => { user with socketId := clientId }) s.users })
      else
        ({ success := false, message := "Username already taken" }, s)
  | none =>
      ({ success := true, message := "Registered successfully" },
       { s with
         users := s.users ++ [{ id := s.nextId, username := username, socketId := clientId }],
         nextId := s.nextId + 1 })

/-- Body of a `privateMessage` event; `toName` renders the payload field `to`
(a Lean keyword). -/
structure PrivateMessageData where
  toName : String
  message : String
deriving DecidableEq, Repr

/-- Handler `handlePrivateMessage`: requires a registered sender and a
registered recipient, then emits once to the recipient's socket. -/
def handlePrivateMessage (data : PrivateMessageData) (clientId timestamp : String)
    (s : ChatState) : Ack × List Emit × ChatState :=
  match s.users.find? (fun user => user.socketId == clientId) with
  | none => ({ success := false, message := "You are not registered" }, [], s)
  | some sender =>
      match s.users.find? (fun user => user.username == data.toName) with
      | none => ({ success := false, message := "Recipient not found" }, [], s)
      | some recipient =>
          ({ success := true, message := "Message sent" },
           [{ target := EmitTarget.socket recipient.socketId,
              event := "privateMessage",
              payload := EmitPayload.privateMsg sender.username data.message timestamp }],
           s)

/-- Handler `handleJoinGroup`: requires a registered caller; creates the group
when absent, adds the caller when not yet a member, and notifies the group's
room.  In the source the group object created in the `none` branch is pushed
and then mutated by the membership check, so it ends up holding exactly the
caller. -/
def handleJoinGroup (groupName clientId timestamp : String) (s : ChatState) :
    JoinAck × List Emit × ChatState :=
  match s.users.find? (fun user => user.socketId == clientId) with
  | none => (JoinAck.fail "You are not registered", [], s)
  | some user =>
      let notice : Emit :=
        { target := EmitTarget.room ("group:" ++ groupName),
          event := "groupNotification",
          payload := EmitPayload.groupNote groupName
            (user.username ++ " joined the group") timestamp }
      match s.groups.find? (fun g => g.name == groupName) with
      | none =>
          (JoinAck.ok "Joined group successfully" [user.username], [notice],
           { s with groups := s.groups ++ [{ name := groupName, members := [user.username] }] })
      | some group =>
          let updatedMembers :=
            if group.members.contains user.username then group.members
            else group.members ++ [user.username]
          (JoinAck.ok "Joined group successfully" updatedMembers, [notice],
           { s with
             groups := updateFirst (fun g => g.name == groupName)
               (fun g => { g with members := updatedMembers }) s.groups })

/-- Handler `handleLeaveGroup`: requires a registered caller and an existing
group, filters the caller's username out of the group, and notifies the
group's room. -/
def handleLeaveGroup (groupName clientId timestamp : String) (s : ChatState) :
    Ack × List Emit × ChatState :=
  match s.users.find? (fun user => user.socketId == clientId) with
  | none => ({ success := false, message := "You are not registered" }, [], s)
  | some user =>
      match s.groups.find? (fun g => g.name == groupName) with
      | none => ({ success := false, message := "Group not found" }, [], s)
      | some _group =>
          ({ success := true, message := "Left group successfully" },
           [{ target := EmitTarget.room ("group:" ++ groupName),
              event := "groupNotification",
              payload := EmitPayload.groupNote groupName
                (user.username ++ " left the group") timestamp }],
           { s with
             groups := updateFirst (fun g => g.name == groupName)
               (fun g => { g with
                 members := g.members.filter (fun member => member != user.username) })
               s.groups })

/-- Body of a `groupMessage` event. -/
structure GroupMessageData where
  group : String
  message : String
deriving DecidableEq, Repr

/-- Handler `handleGroupMessage`: requires a registered sender, an existing
group and membership of the sender, then publishes to the group's room. -/
def handleGroupMessage (data : GroupMessageData) (clientId timestamp : String)
    (s : ChatState) : Ack × List Emit × ChatState :=
  match s.users.find? (fun user => user.socketId == clientId) with
  | none => ({ success := false, message := "You are not registered" }, [], s)
  | some sender =>
      match s.groups.find? (fun g => g.name == data.group) with
      | none => ({ success := false, message := "Group not found" }, [], s)
      | some group =>
          if !(group.members.contains sender.username) then
            ({ success := false, message := "You are not a member of this group" }, [], s)
          else
            ({ success := true, message := "Group message sent" },
             [{ target := EmitTarget.room ("group:" ++ data.group),
                event := "groupMessage",
                payload := EmitPayload.groupMsg data.group sender.username
                  data.message timestamp }],
             s)

/-- Handler `handleGetUsers`: the usernames of all sessions. -/
def handleGetUsers (s : ChatState) : List String :=
  s.users.map (fun u => u.username)

/-- One entry of the `getGroups` response. -/
structure GroupInfo where
  name : String
  memberCount : Nat
deriving DecidableEq, Repr

/-- Handler `handleGetGroups`: name and member count of every group. -/
def handleGetGroups (s : ChatState) : List GroupInfo :=
  s.groups.map (fun g => { name := g.name, memberCount := g.members.length })

/-- Acknowledgment of `getGroupDetails`. -/
inductive GroupDetailsAck where
  | fail (message : String)
  | ok (name : String) (members : List String)
deriving DecidableEq, Repr

/-- Handler `handleGetGroupDetails`: the named group's members, or failure. -/
def handleGetGroupDetails (groupName : String) (s : ChatState) : GroupDetailsAck :=
  match s.groups.find? (fun g => g.name == groupName) with
  | none => GroupDetailsAck.fail "Group not found"
  | some group => GroupDetailsAck.ok group.name group.members

/-- Inbound events the transport can deliver to the gateway.  Queries
(`getUsers`, `getGroups`, `getGroupDetails`) never touch the state and are
collapsed into the single state-neutral `query` event. -/
inductive Event where
  | register (username clientId : String)
  | privateMessage (toName message clientId timestamp : String)
  | joinGroup (groupName clientId timestamp : String)
  | leaveGroup (groupName clientId timestamp : String)
  | groupMessage (groupName message clientId timestamp : String)
  | query
  | disconnect (clientId : String)
deriving DecidableEq, Repr

/-- State transition of a single inbound event. -/
def step (e : Event) (s : ChatState) : ChatState :=
  match e with
  | Event.register u c => (handleRegister u c s).2
  | Event.privateMessage t m c ts =>
      (handlePrivateMessage { toName := t, message := m } c ts s).2.2
  | Event.joinGroup g c ts => (handleJoinGroup g c ts s).2.2
  | Event.leaveGroup g c ts => (handleLeaveGroup g c ts s).2.2
  | Event.groupMessage g m c ts => (handleGroupMessage { group := g, message := m } c ts s).2.2
  | Event.query => s
  | Event.disconnect c => handleDisconnect c s

/-- Runs a sequence of inbound events from a state. -/
def runEvents : List Event → ChatState → ChatState
  | [], s => s
  | e :: evs, s => runEvents evs (step e s)

/-- At most one session per username: the usernames in `users` are pairwise
distinct. -/
def atMostOnePerUsername (s : ChatState) : Prop :=
  (s.users.map (fun u => u.username)).Nodup

instance (s : ChatState) : Decidable (atMostOnePerUsername s) :=
  List.nodupDecidable _

/-- At most one session per socket: the socket ids in `users` are pairwise
distinct. -/
def atMostOnePerSocketId (s : ChatState) : Prop :=
  (s.users.map (fun u => u.socketId)).Nodup

instance (s : ChatState) : Decidable (atMostOnePerSocketId s) :=
  List.nodupDecidable _

/-- The username appears in no group's member array. -/
def groupsExclude (username : String) (s : ChatState) : Prop :=
  ∀ g ∈ s.groups, username ∉ g.members

instance (username : String) (s : ChatState) : Decidable (groupsExclude username s) :=
  inferInstanceAs (Decidable (∀ g ∈ s.groups, username ∉ g.members))

/-- No group's member array repeats a username. -/
def membersNodup (s : ChatState) : Prop :=
  ∀ g ∈ s.groups, g.members.Nodup

instance (s : ChatState) : Decidable (membersNodup s) :=
  inferInstanceAs (Decidable (∀ g ∈ s.groups, g.members.Nodup))

/-! ### Helper lemmas -/

theorem updateFirst_length (p : α → Bool) (f : α → α) (l : List α) :
    (updateFirst p f l).length = l.length := by
  induction l with
  | nil => rfl
  | cons x xs ih =>
      simp only [updateFirst]
      split <;> simp [ih]

theorem map_updateFirst (p : α → Bool) (f : α → α) (g : α → β)
    (h : ∀ x, g (f x) = g x) (l : List α) :
    (updateFirst p f l).map g = l.map g := by
  induction l with
  | nil => rfl
  | cons x xs ih =>
      simp only [updateFirst]
      split <;> simp [h, ih]

theorem any_updateFirst (p : α → Bool) (f : α → α) (q : α → Bool)
    (h : ∀ x, q (f x) = q x) (l : List α) :
    (updateFirst p f l).any q = l.any q := by
  induction l with
  | nil => rfl
  | cons x xs ih =>
      simp only [updateFirst]
      split <;> simp [h, ih]

theorem updateFirst_eq_self (p : α → Bool) (f : α → α) {l : List α} {a : α}
    (hfind : l.find? p = some a) (hfa : f a = a) :
    updateFirst p f l = l := by
  induction l with
  | nil => simp at hfind
  | cons x xs ih =>
      simp only [updateFirst]
      cases hp : p x with
      | true =>
          rw [List.find?_cons_of_pos _ hp] at hfind
          cases hfind
          simp [hp, hfa]
      | false =>
          rw [List.find?_cons_of_neg _ (by simp [hp])] at hfind
          simp [hp, ih hfind]

theorem find?_updateFirst (p : α → Bool) (f : α → α)
    (hpf : ∀ x, p (f x) = p x) {l : List α} {a : α}
    (hfind : l.find? p = some a) :
    (updateFirst p f l).find? p = some (f a) := by
  induction l with
  | nil => simp at hfind
  | cons x xs ih =>
      simp only [updateFirst]
      cases hp : p x with
      | true =>
          rw [List.find?_cons_of_pos _ hp] at hfind
          cases hfind
          rw [if_pos rfl, List.find?_cons_of_pos _ ((hpf _).trans hp)]
      | false =>
          rw [List.find?_cons_of_neg _ (by simp [hp])] at hfind
          rw [if_neg (by simp [hp]), List.find?_cons_of_neg _ (by simp [hp])]
          exact ih hfind

theorem mem_updateFirst (p : α → Bool) (f : α → α) {l : List α} {a : α}
    (hfind : l.find? p = some a) :
    ∀ x ∈ updateFirst p f l, x ∈ l ∨ x = f a := by
  induction l with
  | nil => simp at hfind
  | cons y ys ih =>
      intro x hx
      simp only [updateFirst] at hx
      cases hp : p y with
      | true =>
          rw [List.find?_cons_of_pos _ hp] at hfind
          cases hfind
          rw [if_pos hp] at hx
          rcases List.mem_cons.mp hx with h | h
          · exact Or.inr h
          · exact Or.inl (List.mem_cons_of_mem _ h)
      | false =>
          rw [List.find?_cons_of_neg _ (by simp [hp])] at hfind
          rw [if_neg (by simp [hp])] at hx
          rcases List.mem_cons.mp hx with h | h
          · exact Or.inl (h ▸ List.mem_cons_self _ _)
          · rcases ih hfind x h with h' | h'
            · exact Or.inl (List.mem_cons_of_mem _ h')
            · exact Or.inr h'

theorem find?_append_of_none {p : α → Bool} {l₁ : List α} (l₂ : List α)
    (h : l₁.find? p = none) :
    (l₁ ++ l₂).find? p = l₂.find? p := by
  rw [List.find?_append, h, Option.none_or]

theorem contains_eq_true_iff_mem {l : List String} {a : String} :
    l.contains a = true ↔ a ∈ l := by
  simp [List.contains, List.elem_iff]

theorem handleRegister_groups (username clientId : String) (s : ChatState) :
    (handleRegister username clientId s).2.groups = s.groups := by
  unfold handleRegister
  split
  · split <;> rfl
  · rfl

theorem handlePrivateMessage_state (data : PrivateMessageData) (clientId ts : String)
    (s : ChatState) :
    (handlePrivateMessage data clientId ts s).2.2 = s := by
  unfold handlePrivateMessage
  split
  · rfl
  · split <;> rfl

theorem handleGroupMessage_state (data : GroupMessageData) (clientId ts : String)
    (s : ChatState) :
    (handleGroupMessage data clientId ts s).2.2 = s := by
  unfold handleGroupMessage
  split
  · rfl
  · split
    · rfl
    · split <;> rfl

theorem handleJoinGroup_users (groupName clientId ts : String) (s : ChatState) :
    ((handleJoinGroup groupName clientId ts s).2.2).users = s.users := by
  unfold handleJoinGroup
  split
  · rfl
  · split <;> rfl

theorem handleLeaveGroup_users (groupName clientId ts : String) (s : ChatState) :
    ((handleLeaveGroup groupName clientId ts s).2.2).users = s.users := by
  unfold handleLeaveGroup
  split
  · rfl
  · split <;> rfl

/-- Concrete running example: alice on socket `c1`, bob on socket `c2`,
group `g` containing alice and group `h` containing bob. -/
def exState : ChatState :=
  { users := [{ id := 0, username := "alice", socketId := "c1" },
              { id := 1, username := "bob", socketId := "c2" }],
    groups := [{ name := "g", members := ["alice"] },
               { name := "h", members := ["bob"] }],
    nextId := 2 }

/-! ### Claim theorems -/

/-- C10: if no user owns socket `clientId`, `handleDisconnect` leaves the whole
state (users and every group) unchanged. -/
theorem handleDisconnect_frame (s : ChatState) (clientId : String)
    (h : ∀ u ∈ s.users, u.socketId ≠ clientId) :
    handleDisconnect clientId s = s := by
  have hfind : s.users.find? (fun user => user.socketId == clientId) = none := by
    rw [List.find?_eq_none]
    intro u hu
    simpa using h u hu
  unfold handleDisconnect
  rw [hfind]

/-- Witness for C10: disconnecting an unknown socket on the running example
changes nothing. -/
theorem handleDisconnect_frame_witness :
    handleDisconnect "c9" exState = exState :=
  handleDisconnect_frame exState "c9" (by decide)

/-- C1: the `handleRegister` decision rule.  With no session for the username a
fresh session on the caller's socket is appended and the ack is Registered;
with a session on a different socket that session's socket id is overwritten
(no new session, user count preserved) and the ack is Reconnected; with a
session on the caller's own socket the ack is the `Username already taken`
failure and the state is unchanged. -/
theorem handleRegister_spec (s : ChatState) (username clientId : String) :
    (s.users.find? (fun u => u.username == username) = none →
      handleRegister username clientId s =
        ({ success := true, message := "Registered successfully" },
         { s with
           users := s.users ++ [{ id := s.nextId, username := username, socketId := clientId }],
           nextId := s.nextId + 1 })) ∧
    (∀ existingUser, s.users.find? (fun u => u.username == username) = some existingUser →
      existingUser.socketId ≠ clientId →
      handleRegister username clientId s =
        ({ success := true, message := "Reconnected successfully" },
         { s with
           users := updateFirst (fun u => u.username == username)
             (fun u => { u with socketId := clientId }) s.users }) ∧
      (handleRegister username clientId s).2.users.length = s.users.length) ∧
    (∀ existingUser, s.users.find? (fun u => u.username == username) = some existingUser →
      existingUser.socketId = clientId →
      handleRegister username clientId s =
        ({ success := false, message := "Username already taken" }, s)) := by
  refine ⟨fun h => ?_, fun ex hex hneq => ?_, fun ex hex heq => ?_⟩
  · unfold handleRegister
    rw [h]
  · have hcond : (ex.socketId != clientId) = true := bne_iff_ne.mpr hneq
    have hmain : handleRegister username clientId s =
        ({ success := true, message := "Reconnected successfully" },
         { s with
           users := updateFirst (fun u => u.username == username)
             (fun u => { u with socketId := clientId }) s.users }) := by
      unfold handleRegister
      rw [hex]
      simp [hcond]
    exact ⟨hmain, by rw [hmain]; exact updateFirst_length _ _ _⟩
  · have hcond : (ex.socketId != clientId) = false := by simp [heq]
    unfold handleRegister
    rw [hex]
    simp [hcond]

/-- Witness for C1: the three branches exercised on concrete states. -/
theorem handleRegister_spec_witness :
    handleRegister "carol" "c3" exState =
      ({ success := true, message := "Registered successfully" },
       { users := [{ id := 0, username := "alice", socketId := "c1" },
                   { id := 1, username := "bob", socketId := "c2" },
                   { id := 2, username := "carol", socketId := "c3" }],
         groups := exState.groups, nextId := 3 }) ∧
    (handleRegister "alice" "c3" exState =
      ({ success := true, message := "Reconnected successfully" },
       { users := [{ id := 0, username := "alice", socketId := "c3" },
                   { id := 1, username := "bob", socketId := "c2" }],
         groups := exState.groups, nextId := 2 }) ∧
     (handleRegister "alice" "c3" exState).2.users.length = exState.users.length) ∧
    handleRegister "alice" "c1" exState =
      ({ success := false, message := "Username already taken" }, exState) := by
  refine ⟨?_, ?_, ?_⟩
  · exact (handleRegister_spec exState "carol" "c3").1 (by decide)
  · exact (handleRegister_spec exState "alice" "c3").2.1
      { id := 0, username := "alice", socketId := "c1" } (by decide) (by decide)
  · exact (handleRegister_spec exState "alice" "c1").2.2
      { id := 0, username := "alice", socketId := "c1" } (by decide) (by decide)

/-- C4: when the caller's socket owns the session `sender` and the recipient
name resolves to the session `recipient`, `handlePrivateMessage` acks success
and performs exactly one emission, a `privateMessage` event to the recipient's
socket carrying the sender's username and the message; the state is
unchanged. -/
theorem handlePrivateMessage_spec (s : ChatState) (data : PrivateMessageData)
    (clientId timestamp : String) (sender recipient : User)
    (hs : s.users.find? (fun u => u.socketId == clientId) = some sender)
    (hr : s.users.find? (fun u => u.username == data.toName) = some recipient) :
    handlePrivateMessage data clientId timestamp s =
      ({ success := true, message := "Message sent" },
       [{ target := EmitTarget.socket recipient.socketId,
          event := "privateMessage",
          payload := EmitPayload.privateMsg sender.username data.message timestamp }],
       s) := by
  unfold handlePrivateMessage
  rw [hs, hr]

/-- Witness for C4: alice sends bob a private message on the running
example. -/
theorem handlePrivateMessage_spec_witness :
    handlePrivateMessage { toName := "bob", message := "hi" } "c1" "t0" exState =
      ({ success := true, message := "Message sent" },
       [{ target := EmitTarget.socket "c2",
          event := "privateMessage",
          payload := EmitPayload.privateMsg "alice" "hi" "t0" }],
       exState) :=
  handlePrivateMessage_spec exState { toName := "bob", message := "hi" } "c1" "t0"
    { id := 0, username := "alice", socketId := "c1" }
    { id := 1, username := "bob", socketId := "c2" } (by decide) (by decide)

theorem runEvents_preserves (P : ChatState → Prop) (hstep : ∀ e s, P s → P (step e s)) :
    ∀ evs s, P s → P (runEvents evs s) := by
  intro evs
  induction evs with
  | nil => exact fun s h => h
  | cons e evs ih => exact fun s h => ih _ (hstep e s h)

theorem step_atMostOnePerUsername (e : Event) (s : ChatState)
    (h : atMostOnePerUsername s) : atMostOnePerUsername (step e s) := by
  cases e with
  | register u c =>
      simp only [step]
      cases hfind : s.users.find? (fun user => user.username == u) with
      | none =>
          have hstep : (handleRegister u c s).2 =
              { s with
                users := s.users ++ [{ id := s.nextId, username := u, socketId := c }],
                nextId := s.nextId + 1 } := by
            unfold handleRegister
            rw [hfind]
          rw [hstep]
          unfold atMostOnePerUsername at h ⊢
          simp only [List.map_append, List.map_cons, List.map_nil]
          rw [List.nodup_append]
          refine ⟨h, List.nodup_singleton _, ?_⟩
          rw [List.disjoint_singleton]
          intro hmem
          rcases List.mem_map.mp hmem with ⟨x, hxl, hxu⟩
          have hnone := List.find?_eq_none.mp hfind x hxl
          simp [hxu] at hnone
      | some ex =>
          cases hb : (ex.socketId != c) with
          | true =>
              have husers : (handleRegister u c s).2.users =
                  updateFirst (fun user => user.username == u)
                    (fun user => { user with socketId := c }) s.users := by
                unfold handleRegister
                rw [hfind]
                simp [hb]
              have hmap : (updateFirst (fun user => user.username == u)
                  (fun user => { user with socketId := c }) s.users).map
                    (fun v => v.username) =
                  s.users.map (fun v => v.username) :=
                map_updateFirst (fun user : User => user.username == u)
                  (fun user : User => { user with socketId := c })
                  (fun v : User => v.username) (fun x => rfl) s.users
              unfold atMostOnePerUsername at h ⊢
              rw [husers, hmap]
              exact h
          | false =>
              have hstep : (handleRegister u c s).2 = s := by
                unfold handleRegister
                rw [hfind]
                simp [hb]
              rw [hstep]
              exact h
  | privateMessage t m c ts =>
      simp only [step]
      rw [handlePrivateMessage_state]
      exact h
  | joinGroup g c ts =>
      simp only [step]
      unfold atMostOnePerUsername at h ⊢
      rw [handleJoinGroup_users]
      exact h
  | leaveGroup g c ts =>
      simp only [step]
      unfold atMostOnePerUsername at h ⊢
      rw [handleLeaveGroup_users]
      exact h
  | groupMessage g m c ts =>
      simp only [step]
      rw [handleGroupMessage_state]
      exact h
  | query => exact h
  | disconnect c =>
      simp only [step]
      cases hfind : s.users.find? (fun user => user.socketId == c) with
      | none =>
          have hstep : handleDisconnect c s = s := by
            unfold handleDisconnect
            rw [hfind]
          rw [hstep]
          exact h
      | some user =>
          have hstep : (handleDisconnect c s).users =
              s.users.filter (fun u => u.socketId != c) := by
            unfold handleDisconnect
            rw [hfind]
          unfold atMostOnePerUsername at h ⊢
          rw [hstep]
          exact List.Nodup.sublist (List.Sublist.map _ (List.filter_sublist _)) h

/-- Reachable state in which two sessions share a socket id: the same socket
registers two different usernames and `handleRegister` never inspects the
caller's socket when the username is fresh. -/
def cexSocketState : ChatState :=
  runEvents [Event.register "alice" "s1", Event.register "bob" "s1"] initState

/-- C2 counterexample: the state reached from the empty state by
`register "alice"` and `register "bob"` from the one socket `s1` violates the
claimed invariant — its two sessions share the socket id `s1`. -/
theorem atMostOnePerSocketId_counterexample :
    ¬ (atMostOnePerUsername cexSocketState ∧ atMostOnePerSocketId cexSocketState) := by
  decide

/-- C2 (amended): in every state reachable from the empty initial state the
users collection holds at most one session per username; the per-socket half
of the original claim fails (see the counterexample) because registering a
fresh username never checks whether the caller's socket already owns a
session. -/
theorem reachable_atMostOnePerUsername (evs : List Event) :
    atMostOnePerUsername (runEvents evs initState) :=
  runEvents_preserves atMostOnePerUsername step_atMostOnePerUsername evs initState (by decide)

/-- Reachable state in which socket `c1` owns two sessions, `alice` and
`bob`, and `bob` is a member of group `g`. -/
def cexDisconnectState : ChatState :=
  runEvents [Event.register "alice" "c1", Event.register "bob" "c2",
    Event.joinGroup "g" "c2" "t1", Event.register "bob" "c1"] initState

/-- C3 counterexample: in `cexDisconnectState` socket `c1` owns a session with
username `bob`, yet after `handleDisconnect "c1"` the username `bob` is still
a member of some group — the cascade removes only the first found session's
username from the groups. -/
theorem disconnect_cascade_counterexample :
    cexDisconnectState.users.any
      (fun u => u.socketId == "c1" && u.username == "bob") = true ∧
    ((handleDisconnect "c1" cexDisconnectState).groups.any
      (fun g => g.members.contains "bob")) = true := by
  decide

/-- C3 (amended): if `user` is the session *first found* on socket `clientId`
(the unique such session whenever socket ids are not shared), then after
`handleDisconnect clientId` no session on that socket remains and that user's
username is absent from every group's member set. -/
theorem handleDisconnect_cascade (s : ChatState) (clientId : String) (user : User)
    (h : s.users.find? (fun u => u.socketId == clientId) = some user) :
    (handleDisconnect clientId s).users.find? (fun u => u.socketId == clientId) = none ∧
    groupsExclude user.username (handleDisconnect clientId s) := by
  have hstate : handleDisconnect clientId s =
      { s with
        users := s.users.filter (fun u => u.socketId != clientId),
        groups := s.groups.map (fun group =>
          { group with
            members := group.members.filter (fun member => member != user.username) }) } := by
    unfold handleDisconnect
    rw [h]
  rw [hstate]
  constructor
  · rw [List.find?_eq_none]
    intro u hu
    have hne := (List.mem_filter.mp hu).2
    simp only [bne_iff_ne] at hne
    simp [hne]
  · unfold groupsExclude
    intro g hg
    rcases List.mem_map.mp hg with ⟨g₀, hg₀, rfl⟩
    intro hmem
    have hne := (List.mem_filter.mp hmem).2
    simp at hne

/-- Witness for C3 (amended): disconnecting alice's socket on the running
example deregisters the socket and clears alice from every group. -/
theorem handleDisconnect_cascade_witness :
    (handleDisconnect "c1" exState).users.find? (fun u => u.socketId == "c1") = none ∧
    groupsExclude "alice" (handleDisconnect "c1" exState) :=
  handleDisconnect_cascade exState "c1"
    { id := 0, username := "alice", socketId := "c1" } (by decide)

/-- C5: `handleGroupMessage` fails for an unregistered caller, then for an
unknown group, then for a registered caller that is not a member — each time
with no emission and no state change — and only when all three preconditions
hold does it publish the payload to the group's room and ack success. -/
theorem handleGroupMessage_spec (s : ChatState) (data : GroupMessageData)
    (clientId timestamp : String) :
    (s.users.find? (fun u => u.socketId == clientId) = none →
      handleGroupMessage data clientId timestamp s =
        ({ success := false, message := "You are not registered" }, [], s)) ∧
    (∀ sender, s.users.find? (fun u => u.socketId == clientId) = some sender →
      s.groups.find? (fun g => g.name == data.group) = none →
      handleGroupMessage data clientId timestamp s =
        ({ success := false, message := "Group not found" }, [], s)) ∧
    (∀ sender group, s.users.find? (fun u => u.socketId == clientId) = some sender →
      s.groups.find? (fun g => g.name == data.group) = some group →
      group.members.contains sender.username = false →
      handleGroupMessage data clientId timestamp s =
        ({ success := false, message := "You are not a member of this group" }, [], s)) ∧
    (∀ sender group, s.users.find? (fun u => u.socketId == clientId) = some sender →
      s.groups.find? (fun g => g.name == data.group) = some group →
      group.members.contains sender.username = true →
      handleGroupMessage data clientId timestamp s =
        ({ success := true, message := "Group message sent" },
         [{ target := EmitTarget.room ("group:" ++ data.group),
            event := "groupMessage",
            payload := EmitPayload.groupMsg data.group sender.username
              data.message timestamp }],
         s)) := by
  refine ⟨fun h => ?_, fun sender hs hg => ?_, fun sender group hs hg hm => ?_,
    fun sender group hs hg hm => ?_⟩
  · unfold handleGroupMessage
    rw [h]
  · unfold handleGroupMessage
    rw [hs, hg]
  · have hm' : sender.username ∉ group.members := by
      intro hmem
      have hcontains := contains_eq_true_iff_mem.mpr hmem
      rw [hm] at hcontains
      exact Bool.noConfusion hcontains
    unfold handleGroupMessage
    simp [hs, hg, hm']
  · have hm' : sender.username ∈ group.members := contains_eq_true_iff_mem.mp hm
    unfold handleGroupMessage
    simp [hs, hg, hm']

/-- Witness for C5: the four branches exercised on the running example. -/
theorem handleGroupMessage_spec_witness :
    handleGroupMessage { group := "g", message := "m1" } "c9" "t0" exState =
      ({ success := false, message := "You are not registered" }, [], exState) ∧
    handleGroupMessage { group := "x", message := "m1" } "c1" "t0" exState =
      ({ success := false, message := "Group not found" }, [], exState) ∧
    handleGroupMessage { group := "h", message := "m1" } "c1" "t0" exState =
      ({ success := false, message := "You are not a member of this group" }, [], exState) ∧
    handleGroupMessage { group := "g", message := "m1" } "c1" "t0" exState =
      ({ success := true, message := "Group message sent" },
       [{ target := EmitTarget.room ("group:" ++ "g"),
          event := "groupMessage",
          payload := EmitPayload.groupMsg "g" "alice" "m1" "t0" }],
       exState) := by
  refine ⟨?_, ?_, ?_, ?_⟩
  · exact (handleGroupMessage_spec exState { group := "g", message := "m1" } "c9" "t0").1
      (by decide)
  · exact (handleGroupMessage_spec exState { group := "x", message := "m1" } "c1" "t0").2.1
      { id := 0, username := "alice", socketId := "c1" } (by decide) (by decide)
  · exact (handleGroupMessage_spec exState { group := "h", message := "m1" } "c1" "t0").2.2.1
      { id := 0, username := "alice", socketId := "c1" } { name := "h", members := ["bob"] }
      (by decide) (by decide) (by decide)
  · exact (handleGroupMessage_spec exState { group := "g", message := "m1" } "c1" "t0").2.2.2
      { id := 0, username := "alice", socketId := "c1" } { name := "g", members := ["alice"] }
      (by decide) (by decide) (by decide)

/-- C7: for a registered caller, `handleLeaveGroup` acks the `Group not found`
failure exactly when no group of that name exists (leaving the state
unchanged); when the group exists it acks success, the group's member array
becomes its old value with the caller's username filtered out, and if the
caller was not a member the whole state is unchanged. -/
theorem handleLeaveGroup_spec (s : ChatState) (groupName clientId timestamp : String)
    (user : User)
    (h : s.users.find? (fun u => u.socketId == clientId) = some user) :
    ((handleLeaveGroup groupName clientId timestamp s).1 =
        { success := false, message := "Group not found" } ↔
      s.groups.find? (fun g => g.name == groupName) = none) ∧
    (s.groups.find? (fun g => g.name == groupName) = none →
      (handleLeaveGroup groupName clientId timestamp s).2.2 = s) ∧
    (∀ group, s.groups.find? (fun g => g.name == groupName) = some group →
      (handleLeaveGroup groupName clientId timestamp s).1 =
        { success := true, message := "Left group successfully" } ∧
      ((handleLeaveGroup groupName clientId timestamp s).2.2).groups.find?
          (fun g => g.name == groupName) =
        some { group with
               members := group.members.filter (fun member => member != user.username) } ∧
      (user.username ∉ group.members →
        (handleLeaveGroup groupName clientId timestamp s).2.2 = s)) := by
  cases hg : s.groups.find? (fun g => g.name == groupName) with
  | none =>
      have heq : handleLeaveGroup groupName clientId timestamp s =
          ({ success := false, message := "Group not found" }, [], s) := by
        unfold handleLeaveGroup
        rw [h, hg]
      refine ⟨⟨fun _ => rfl, fun _ => by rw [heq]⟩, fun _ => by rw [heq],
        fun group hgroup => ?_⟩
      exact Option.noConfusion hgroup
  | some grp =>
      have heq : handleLeaveGroup groupName clientId timestamp s =
          ({ success := true, message := "Left group successfully" },
           [{ target := EmitTarget.room ("group:" ++ groupName),
              event := "groupNotification",
              payload := EmitPayload.groupNote groupName
                (user.username ++ " left the group") timestamp }],
           { s with
             groups := updateFirst (fun g => g.name == groupName)
               (fun g => { g with
                 members := g.members.filter (fun member => member != user.username) })
               s.groups }) := by
        unfold handleLeaveGroup
        rw [h, hg]
      refine ⟨⟨fun hack => ?_, fun hnone => ?_⟩, fun hnone => ?_, fun group hgroup => ?_⟩
      · rw [heq] at hack
        simp at hack
      · exact Option.noConfusion hnone
      · exact Option.noConfusion hnone
      · simp only [Option.some.injEq] at hgroup
        subst hgroup
        refine ⟨by rw [heq], ?_, ?_⟩
        · have hfu : List.find? (fun g => g.name == groupName)
              (updateFirst (fun g => g.name == groupName)
                (fun g => { g with
                  members := g.members.filter (fun member => member != user.username) })
                s.groups) =
              some { grp with
                members := grp.members.filter (fun member => member != user.username) } :=
            find?_updateFirst (fun g : Group => g.name == groupName)
              (fun g : Group => { g with
                members := g.members.filter (fun member => member != user.username) })
              (fun x => rfl) hg
          rw [heq]
          exact hfu
        · intro hnm
          have hfilter : grp.members.filter (fun member => member != user.username) =
              grp.members :=
            List.filter_eq_self.mpr (fun a ha =>
              bne_iff_ne.mpr (fun hcontra => hnm (hcontra ▸ ha)))
          have hfg : (fun g => { g with
              members := g.members.filter (fun member => member != user.username) }) grp =
              grp := by
            show ({ grp with
              members := grp.members.filter (fun member => member != user.username) } : Group) =
                grp
            rw [hfilter]
          rw [heq, updateFirst_eq_self _ _ hg hfg]

/-- Witness for C7: leaving the unknown group `x`, the joined group `g` and
the non-member group `h` on the running example. -/
theorem handleLeaveGroup_spec_witness :
    ((handleLeaveGroup "x" "c1" "t0" exState).1 =
        { success := false, message := "Group not found" } ↔
      exState.groups.find? (fun g => g.name == "x") = none) ∧
    (handleLeaveGroup "x" "c1" "t0" exState).2.2 = exState ∧
    (handleLeaveGroup "g" "c1" "t0" exState).1 =
      { success := true, message := "Left group successfully" } ∧
    ((handleLeaveGroup "g" "c1" "t0" exState).2.2).groups.find?
        (fun g => g.name == "g") = some { name := "g", members := [] } ∧
    (handleLeaveGroup "h" "c1" "t0" exState).2.2 = exState := by
  refine ⟨?_, ?_, ?_, ?_, ?_⟩
  · exact (handleLeaveGroup_spec exState "x" "c1" "t0"
      { id := 0, username := "alice", socketId := "c1" } (by decide)).1
  · exact (handleLeaveGroup_spec exState "x" "c1" "t0"
      { id := 0, username := "alice", socketId := "c1" } (by decide)).2.1 (by decide)
  · exact ((handleLeaveGroup_spec exState "g" "c1" "t0"
      { id := 0, username := "alice", socketId := "c1" } (by decide)).2.2
      { name := "g", members := ["alice"] } (by decide)).1
  · exact ((handleLeaveGroup_spec exState "g" "c1" "t0"
      { id := 0, username := "alice", socketId := "c1" } (by decide)).2.2
      { name := "g", members := ["alice"] } (by decide)).2.1
  · exact ((handleLeaveGroup_spec exState "h" "c1" "t0"
      { id := 0, username := "alice", socketId := "c1" } (by decide)).2.2
      { name := "h", members := ["bob"] } (by decide)).2.2 (by decide)

/-- C8: each state-bearing handler is a total function in this embedding, and
whenever it returns a failure acknowledgment the users collection and every
group are exactly as before the call (the query handlers `getUsers`,
`getGroups` and `getGroupDetails` never produce a successor state at all). -/
theorem handlers_failure_atomic :
    (∀ username clientId s, (handleRegister username clientId s).1.success = false →
      (handleRegister username clientId s).2 = s) ∧
    (∀ data clientId ts s, (handlePrivateMessage data clientId ts s).1.success = false →
      (handlePrivateMessage data clientId ts s).2.2 = s) ∧
    (∀ groupName clientId ts s msg,
      (handleJoinGroup groupName clientId ts s).1 = JoinAck.fail msg →
      (handleJoinGroup groupName clientId ts s).2.2 = s) ∧
    (∀ groupName clientId ts s, (handleLeaveGroup groupName clientId ts s).1.success = false →
      (handleLeaveGroup groupName clientId ts s).2.2 = s) ∧
    (∀ data clientId ts s, (handleGroupMessage data clientId ts s).1.success = false →
      (handleGroupMessage data clientId ts s).2.2 = s) := by
  refine ⟨?_, ?_, ?_, ?_, ?_⟩
  · intro u c s
    unfold handleRegister
    split
    · split
      · intro hk
        simp at hk
      · intro _
        rfl
    · intro hk
      simp at hk
  · intro d c ts s _
    exact handlePrivateMessage_state d c ts s
  · intro g c ts s msg
    unfold handleJoinGroup
    split
    · intro _
      rfl
    · split
      · intro hk
        simp at hk
      · intro hk
        simp at hk
  · intro g c ts s
    unfold handleLeaveGroup
    split
    · intro _
      rfl
    · split
      · intro _
        rfl
      · intro hk
        simp at hk
  · intro d c ts s _
    exact handleGroupMessage_state d c ts s

/-- Witness for C8: a failing call of each handler on the running example
leaves the state intact. -/
theorem handlers_failure_atomic_witness :
    (handleRegister "alice" "c1" exState).2 = exState ∧
    (handlePrivateMessage { toName := "bob", message := "m" } "c9" "t0" exState).2.2 =
      exState ∧
    (handleJoinGroup "g" "c9" "t0" exState).2.2 = exState ∧
    (handleLeaveGroup "x" "c1" "t0" exState).2.2 = exState ∧
    (handleGroupMessage { group := "h", message := "m" } "c1" "t0" exState).2.2 =
      exState := by
  refine ⟨?_, ?_, ?_, ?_, ?_⟩
  · exact handlers_failure_atomic.1 "alice" "c1" exState (by decide)
  · exact handlers_failure_atomic.2.1 { toName := "bob", message := "m" } "c9" "t0" exState
      (by decide)
  · exact handlers_failure_atomic.2.2.1 "g" "c9" "t0" exState "You are not registered"
      (by decide)
  · exact handlers_failure_atomic.2.2.2.1 "x" "c1" "t0" exState (by decide)
  · exact handlers_failure_atomic.2.2.2.2 { group := "h", message := "m" } "c1" "t0" exState
      (by decide)

theorem any_map_eq (f : α → β) (q : β → Bool) (l : List α) :
    (l.map f).any q = l.any (fun x => q (f x)) := by
  induction l with
  | nil => rfl
  | cons x xs ih => simp [ih]

theorem step_groupName_any (gname : String) (e : Event) (s : ChatState)
    (h : s.groups.any (fun g => g.name == gname) = true) :
    (step e s).groups.any (fun g => g.name == gname) = true := by
  cases e with
  | register u c =>
      simp only [step]
      rw [handleRegister_groups]
      exact h
  | privateMessage t m c ts =>
      simp only [step]
      rw [handlePrivateMessage_state]
      exact h
  | joinGroup g c ts =>
      simp only [step]
      cases hu : s.users.find? (fun user => user.socketId == c) with
      | none =>
          have hstate : (handleJoinGroup g c ts s).2.2 = s := by
            unfold handleJoinGroup
            rw [hu]
          rw [hstate]
          exact h
      | some user =>
          cases hg : s.groups.find? (fun gr => gr.name == g) with
          | none =>
              have hstate : ((handleJoinGroup g c ts s).2.2).groups =
                  s.groups ++ [{ name := g, members := [user.username] }] := by
                unfold handleJoinGroup
                rw [hu, hg]
              rw [hstate, List.any_append, h]
              rfl
          | some group =>
              have hstate : ((handleJoinGroup g c ts s).2.2).groups =
                  updateFirst (fun gr => gr.name == g)
                    (fun gr => { gr with
                      members := if group.members.contains user.username
                        then group.members else group.members ++ [user.username] })
                    s.groups := by
                unfold handleJoinGroup
                rw [hu, hg]
              have hany : (updateFirst (fun gr : Group => gr.name == g)
                  (fun gr : Group => { gr with
                    members := if group.members.contains user.username
                      then group.members else group.members ++ [user.username] })
                  s.groups).any (fun x => x.name == gname) =
                  s.groups.any (fun x => x.name == gname) :=
                any_updateFirst (fun gr : Group => gr.name == g)
                  (fun gr : Group => { gr with
                    members := if group.members.contains user.username
                      then group.members else group.members ++ [user.username] })
                  (fun x : Group => x.name == gname) (fun x => rfl) s.groups
              rw [hstate, hany]
              exact h
  | leaveGroup g c ts =>
      simp only [step]
      cases hu : s.users.find? (fun user => user.socketId == c) with
      | none =>
          have hstate : (handleLeaveGroup g c ts s).2.2 = s := by
            unfold handleLeaveGroup
            rw [hu]
          rw [hstate]
          exact h
      | some user =>
          cases hg : s.groups.find? (fun gr => gr.name == g) with
          | none =>
              have hstate : (handleLeaveGroup g c ts s).2.2 = s := by
                unfold handleLeaveGroup
                rw [hu, hg]
              rw [hstate]
              exact h
          | some group =>
              have hstate : ((handleLeaveGroup g c ts s).2.2).groups =
                  updateFirst (fun gr => gr.name == g)
                    (fun gr => { gr with
                      members := gr.members.filter (fun member => member != user.username) })
                    s.groups := by
                unfold handleLeaveGroup
                rw [hu, hg]
              have hany : (updateFirst (fun gr : Group => gr.name == g)
                  (fun gr : Group => { gr with
                    members := gr.members.filter (fun member => member != user.username) })
                  s.groups).any (fun x => x.name == gname) =
                  s.groups.any (fun x => x.name == gname) :=
                any_updateFirst (fun gr : Group => gr.name == g)
                  (fun gr : Group => { gr with
                    members := gr.members.filter (fun member => member != user.username) })
                  (fun x : Group => x.name == gname) (fun x => rfl) s.groups
              rw [hstate, hany]
              exact h
  | groupMessage g m c ts =>
      simp only [step]
      rw [handleGroupMessage_state]
      exact h
  | query => exact h
  | disconnect c =>
      simp only [step]
      cases hu : s.users.find? (fun user => user.socketId == c) with
      | none =>
          have hstate : handleDisconnect c s = s := by
            unfold handleDisconnect
            rw [hu]
          rw [hstate]
          exact h
      | some user =>
          have hstate : (handleDisconnect c s).groups =
              s.groups.map (fun group => { group with
                members := group.members.filter (fun member => member != user.username) }) := by
            unfold handleDisconnect
            rw [hu]
          rw [hstate, List.any_map]
          exact h

/-- C9: once a group name is present in the registry it survives every later
event — no handler ever removes a group — and it keeps appearing in the
`getGroups` listing (with whatever member count), even after all members have
left or disconnected. -/
theorem groups_persist (s : ChatState) (evs : List Event) (gname : String)
    (h : s.groups.any (fun g => g.name == gname) = true) :
    (runEvents evs s).groups.any (fun g => g.name == gname) = true ∧
    (handleGetGroups (runEvents evs s)).any (fun gi => gi.name == gname) = true := by
  have hrun : (runEvents evs s).groups.any (fun g => g.name == gname) = true :=
    runEvents_preserves (fun st => st.groups.any (fun g => g.name == gname) = true)
      (step_groupName_any gname) evs s h
  refine ⟨hrun, ?_⟩
  unfold handleGetGroups
  rw [any_map_eq]
  exact hrun

/-- Witness for C9: after its only member leaves group `g` and the other user
disconnects, `g` still exists and is still listed by `getGroups`. -/
theorem groups_persist_witness :
    (runEvents [Event.leaveGroup "g" "c1" "t1", Event.disconnect "c2"] exState).groups.any
      (fun g => g.name == "g") = true ∧
    (handleGetGroups
        (runEvents [Event.leaveGroup "g" "c1" "t1", Event.disconnect "c2"] exState)).any
      (fun gi => gi.name == "g") = true :=
  groups_persist exState [Event.leaveGroup "g" "c1" "t1", Event.disconnect "c2"] "g"
    (by decide)

theorem handleJoinGroup_member_already (s : ChatState) (groupName clientId ts : String)
    (user : User) (group : Group)
    (hu : s.users.find? (fun u => u.socketId == clientId) = some user)
    (hg : s.groups.find? (fun g => g.name == groupName) = some group)
    (hm : user.username ∈ group.members) :
    (handleJoinGroup groupName clientId ts s).2.2 = s := by
  have hc : group.members.contains user.username = true :=
    contains_eq_true_iff_mem.mpr hm
  have hstate : ((handleJoinGroup groupName clientId ts s).2.2).groups =
      updateFirst (fun g => g.name == groupName)
        (fun g => { g with
          members := if group.members.contains user.username
            then group.members else group.members ++ [user.username] })
        s.groups := by
    unfold handleJoinGroup
    rw [hu, hg]
  have husers := handleJoinGroup_users groupName clientId ts s
  have hfg : (fun g => ({ g with
      members := if group.members.contains user.username
        then group.members else group.members ++ [user.username] } : Group)) group =
      group := by
    rw [hc]
    rfl
  have hid : updateFirst (fun g => g.name == groupName)
      (fun g => { g with
        members := if group.members.contains user.username
          then group.members else group.members ++ [user.username] })
      s.groups = s.groups :=
    updateFirst_eq_self _ _ hg hfg
  have hnext : ((handleJoinGroup groupName clientId ts s).2.2).nextId = s.nextId := by
    unfold handleJoinGroup
    rw [hu, hg]
  cases hjoin : (handleJoinGroup groupName clientId ts s).2.2 with
  | mk users groups nextId =>
      have h₁ : users = s.users := by rw [← husers, hjoin]
      have h₂ : groups = s.groups := by
        rw [show groups = ((handleJoinGroup groupName clientId ts s).2.2).groups from by
          rw [hjoin], hstate, hid]
      have h₃ : nextId = s.nextId := by rw [← hnext, hjoin]
      rw [h₁, h₂, h₃]

theorem step_membersNodup (e : Event) (s : ChatState)
    (h : membersNodup s) : membersNodup (step e s) := by
  cases e with
  | register u c =>
      simp only [step]
      unfold membersNodup at h ⊢
      rw [handleRegister_groups]
      exact h
  | privateMessage t m c ts =>
      simp only [step]
      rw [handlePrivateMessage_state]
      exact h
  | joinGroup g c ts =>
      simp only [step]
      cases hu : s.users.find? (fun user => user.socketId == c) with
      | none =>
          have hstate : (handleJoinGroup g c ts s).2.2 = s := by
            unfold handleJoinGroup
            rw [hu]
          rw [hstate]
          exact h
      | some user =>
          cases hg : s.groups.find? (fun gr => gr.name == g) with
          | none =>
              have hstate : ((handleJoinGroup g c ts s).2.2).groups =
                  s.groups ++ [{ name := g, members := [user.username] }] := by
                unfold handleJoinGroup
                rw [hu, hg]
              unfold membersNodup
              rw [hstate]
              intro gr hgr
              rcases List.mem_append.mp hgr with h' | h'
              · exact h gr h'
              · rw [List.mem_singleton] at h'
                subst h'
                exact List.nodup_singleton _
          | some group =>
              have hstate : ((handleJoinGroup g c ts s).2.2).groups =
                  updateFirst (fun gr => gr.name == g)
                    (fun gr => { gr with
                      members := if group.members.contains user.username
                        then group.members else group.members ++ [user.username] })
                    s.groups := by
                unfold handleJoinGroup
                rw [hu, hg]
              unfold membersNodup
              rw [hstate]
              intro gr hgr
              have hnd : group.members.Nodup := h group (List.mem_of_find?_eq_some hg)
              rcases mem_updateFirst _ _ hg gr hgr with h' | h'
              · exact h gr h'
              · subst h'
                show (if group.members.contains user.username
                  then group.members else group.members ++ [user.username]).Nodup
                cases hc : group.members.contains user.username with
                | true =>
                    rw [if_pos rfl]
                    exact hnd
                | false =>
                    have hnm : user.username ∉ group.members := by
                      intro hmem
                      have hcontra := contains_eq_true_iff_mem.mpr hmem
                      rw [hc] at hcontra
                      exact Bool.noConfusion hcontra
                    rw [if_neg (by simp)]
                    rw [List.nodup_append]
                    exact ⟨hnd, List.nodup_singleton _, List.disjoint_singleton.mpr hnm⟩
  | leaveGroup g c ts =>
      simp only [step]
      cases hu : s.users.find? (fun user => user.socketId == c) with
      | none =>
          have hstate : (handleLeaveGroup g c ts s).2.2 = s := by
            unfold handleLeaveGroup
            rw [hu]
          rw [hstate]
          exact h
      | some user =>
          cases hg : s.groups.find? (fun gr => gr.name == g) with
          | none =>
              have hstate : (handleLeaveGroup g c ts s).2.2 = s := by
                unfold handleLeaveGroup
                rw [hu, hg]
              rw [hstate]
              exact h
          | some group =>
              have hstate : ((handleLeaveGroup g c ts s).2.2).groups =
                  updateFirst (fun gr => gr.name == g)
                    (fun gr => { gr with
                      members := gr.members.filter (fun member => member != user.username) })
                    s.groups := by
                unfold handleLeaveGroup
                rw [hu, hg]
              unfold membersNodup
              rw [hstate]
              intro gr hgr
              rcases mem_updateFirst _ _ hg gr hgr with h' | h'
              · exact h gr h'
              · subst h'
                exact List.Nodup.filter _ (h group (List.mem_of_find?_eq_some hg))
  | groupMessage g m c ts =>
      simp only [step]
      rw [handleGroupMessage_state]
      exact h
  | query => exact h
  | disconnect c =>
      simp only [step]
      cases hu : s.users.find? (fun user => user.socketId == c) with
      | none =>
          have hstate : handleDisconnect c s = s := by
            unfold handleDisconnect
            rw [hu]
          rw [hstate]
          exact h
      | some user =>
          have hstate : (handleDisconnect c s).groups =
              s.groups.map (fun group => { group with
                members := group.members.filter (fun member => member != user.username) }) := by
            unfold handleDisconnect
            rw [hu]
          unfold membersNodup
          rw [hstate]
          intro gr hgr
          rcases List.mem_map.mp hgr with ⟨g₀, hg₀, rfl⟩
          exact List.Nodup.filter _ (h g₀ hg₀)

/-- C6: joining a group is idempotent for a registered caller — a second
consecutive `handleJoinGroup` with the same username leaves the state (hence
the group's member array and member count) unchanged — and in every state
reachable from the empty initial state no group's member array repeats a
username. -/
theorem handleJoinGroup_idempotent :
    (∀ s groupName clientId ts₁ ts₂ user,
      s.users.find? (fun u => u.socketId == clientId) = some user →
      (handleJoinGroup groupName clientId ts₂
        ((handleJoinGroup groupName clientId ts₁ s).2.2)).2.2 =
        (handleJoinGroup groupName clientId ts₁ s).2.2) ∧
    (∀ evs, membersNodup (runEvents evs initState)) := by
  constructor
  · intro s groupName clientId ts₁ ts₂ user hu
    have hu₂ : ((handleJoinGroup groupName clientId ts₁ s).2.2).users.find?
        (fun u => u.socketId == clientId) = some user := by
      rw [handleJoinGroup_users]
      exact hu
    have hex : ∃ group, ((handleJoinGroup groupName clientId ts₁ s).2.2).groups.find?
        (fun g => g.name == groupName) = some group ∧ user.username ∈ group.members := by
      cases hg : s.groups.find? (fun g => g.name == groupName) with
      | none =>
          have hstate : ((handleJoinGroup groupName clientId ts₁ s).2.2).groups =
              s.groups ++ [{ name := groupName, members := [user.username] }] := by
            unfold handleJoinGroup
            rw [hu, hg]
          refine ⟨{ name := groupName, members := [user.username] }, ?_, by simp⟩
          rw [hstate, find?_append_of_none _ hg, List.find?_cons_of_pos _ (by simp)]
      | some group =>
          have hstate : ((handleJoinGroup groupName clientId ts₁ s).2.2).groups =
              updateFirst (fun g => g.name == groupName)
                (fun g => { g with
                  members := if group.members.contains user.username
                    then group.members else group.members ++ [user.username] })
                s.groups := by
            unfold handleJoinGroup
            rw [hu, hg]
          refine ⟨{ group with
            members := if group.members.contains user.username
              then group.members else group.members ++ [user.username] }, ?_, ?_⟩
          · rw [hstate]
            exact find?_updateFirst (fun g : Group => g.name == groupName)
              (fun g : Group => { g with
                members := if group.members.contains user.username
                  then group.members else group.members ++ [user.username] })
              (fun x => rfl) hg
          · show user.username ∈ (if group.members.contains user.username
              then group.members else group.members ++ [user.username])
            cases hc : group.members.contains user.username with
            | true =>
                rw [if_pos rfl]
                exact contains_eq_true_iff_mem.mp hc
            | false =>
                rw [if_neg (by simp)]
                simp
    obtain ⟨group, hg₂, hm₂⟩ := hex
    exact handleJoinGroup_member_already _ groupName clientId ts₂ user group hu₂ hg₂ hm₂
  · intro evs
    exact runEvents_preserves membersNodup step_membersNodup evs initState (by decide)

/-- Witness for C6: bob joins group `g` twice in a row on the running example
and the second join changes nothing; a concrete double-join run from the
empty state has duplicate-free member arrays. -/
theorem handleJoinGroup_idempotent_witness :
    (handleJoinGroup "g" "c2" "t2" ((handleJoinGroup "g" "c2" "t1" exState).2.2)).2.2 =
      (handleJoinGroup "g" "c2" "t1" exState).2.2 ∧
    membersNodup (runEvents [Event.register "alice" "c1", Event.joinGroup "g" "c1" "t1",
      Event.joinGroup "g" "c1" "t2"] initState) :=
  ⟨handleJoinGroup_idempotent.1 exState "g" "c2" "t1" "t2"
      { id := 1, username := "bob", socketId := "c2" } (by decide),
   handleJoinGroup_idempotent.2 [Event.register "alice" "c1",
      Event.joinGroup "g" "c1" "t1", Event.joinGroup "g" "c1" "t2"]⟩

end Chat
